import Mathlib

/-!
Verification of the BridgeControl binding layer
(`src/ocaml/netdev/bridge_stubs.c`): four ioctl stubs for Linux bridge
management (`stub_bridge_add`, `stub_bridge_del`, `stub_bridge_intf_add`,
`stub_bridge_intf_del`).

Strings at the C boundary are modelled as byte lists (`List Nat`); the
terminating NUL of a C string is the end of the list, so a well-formed
C string contains no zero byte.  Kernel interaction (`if_nametoindex`,
`ioctl`) is modelled by an abstract `Kernel` environment, and each stub
returns its outcome together with the trace of kernel calls it issued.

The macro `CHECK_IOCTL` and the kernel's bridge table live outside this
fragment's source (`netdev.h` and the kernel); where they matter they
are modelled from the spec, as marked on the definitions below.
-/

namespace BridgeStubs

/-- Constant `IFNAMSIZ` from the C headers: width of the kernel
interface-name field. -/
def IFNAMSIZ : Nat := 16

/-- The four bridge ioctl request codes used by the stubs. -/
inductive IoctlCode where
  | SIOCBRADDBR
  | SIOCBRDELBR
  | SIOCBRADDIF
  | SIOCBRDELIF
deriving DecidableEq, Repr

/-- Structure `ifreq` as used by the stubs: the `IFNAMSIZ`-byte
`ifr_name` field and the `int`-sized `ifr_ifindex` field. -/
structure Ifreq where
  ifr_name : List Nat
  ifr_ifindex : Int
deriving DecidableEq, Repr

/-- The argument handed to `ioctl`: either a bare C string pointer
(`String_val(name)`, for `SIOCBRADDBR`/`SIOCBRDELBR`) or a pointer to a
`struct ifreq` (for `SIOCBRADDIF`/`SIOCBRDELIF`). -/
inductive IoctlArg where
  | str (bytes : List Nat)
  | req (r : Ifreq)
deriving DecidableEq, Repr

/-- Observable kernel interactions of a stub: an `if_nametoindex` lookup
(with its result), an `ioctl` request, or a `close` of a descriptor.
`close` is in the alphabet so that its absence from every trace is a
provable fact; no stub emits it. -/
inductive Event where
  | resolve (intf : List Nat) (result : Nat)
  | ioctl (fd : Int) (code : IoctlCode) (arg : IoctlArg)
  | close (fd : Int)
deriving DecidableEq, Repr

/-- Outcome of a stub call: `Val_unit` return, `caml_failwith
"Device_not_found"`, or the ioctl-failure exception with its operation
label and the OS errno text. -/
inductive Outcome where
  | success
  | deviceNotFound
  | ioctlError (label : String) (errnoText : String)
deriving DecidableEq, Repr

/-- Abstract kernel environment: `nametoindex` models `if_nametoindex`
(0 means "no such interface"); `ioctl` models the result of an ioctl
request, `none` meaning success and `some t` meaning failure with errno
text `t`. -/
structure Kernel where
  nametoindex : List Nat → Nat
  ioctl : Int → IoctlCode → IoctlArg → Option String

/-- The effect of `strncpy(dst, src, n)` on the first `n` bytes of `dst`
(the stubs use `n = IFNAMSIZ` = the whole buffer): copies bytes of `src`
until `src` is exhausted (its terminating NUL, i.e. the end of the list,
or an embedded zero byte), then pads the remainder of the `n` bytes with
zeros.  Every one of the first `n` positions is written, so the result
does not depend on the previous contents of `dst`. -/
def strncpyInto (dst src : List Nat) (n : Nat) : List Nat :=
  match n, dst, src with
  | 0, d, _ => d
  | _ + 1, [], _ => []
  | m + 1, _ :: ds, [] => 0 :: strncpyInto ds [] m
  | m + 1, _ :: ds, c :: cs =>
      if c = 0 then 0 :: strncpyInto ds [] m
      else c :: strncpyInto ds cs m

/-- The buffer produced by `memset(ifr.ifr_name, 0, IFNAMSIZ)`: the
zero-filled name buffer. -/
def memsetZero (n : Nat) : List Nat := List.replicate n 0

/-- The `ifr_name` contents after `memset` then
`strncpy(ifr.ifr_name, String_val(name), IFNAMSIZ)`. -/
def mkIfrName (name : List Nat) : List Nat :=
  strncpyInto (memsetZero IFNAMSIZ) name IFNAMSIZ

/-- Stub `stub_bridge_add`: one `SIOCBRADDBR` ioctl with the name string
passed verbatim; `CHECK_IOCTL(err, "bridge add")`. -/
def stub_bridge_add (k : Kernel) (fd : Int) (name : List Nat) :
    Outcome × List Event :=
  match k.ioctl fd .SIOCBRADDBR (.str name) with
  | none => (.success, [.ioctl fd .SIOCBRADDBR (.str name)])
  | some t => (.ioctlError "bridge add" t, [.ioctl fd .SIOCBRADDBR (.str name)])

/-- Stub `stub_bridge_del`: one `SIOCBRDELBR` ioctl with the name string
passed verbatim; `CHECK_IOCTL(err, "bridge del")`. -/
def stub_bridge_del (k : Kernel) (fd : Int) (name : List Nat) :
    Outcome × List Event :=
  match k.ioctl fd .SIOCBRDELBR (.str name) with
  | none => (.success, [.ioctl fd .SIOCBRDELBR (.str name)])
  | some t => (.ioctlError "bridge del" t, [.ioctl fd .SIOCBRDELBR (.str name)])

/-- Stub `stub_bridge_intf_add`: resolve `intf` with `if_nametoindex`; if the
index is 0, `caml_failwith("Device_not_found")` before any ioctl;
otherwise build the `ifreq` (zeroed name buffer, `strncpy` of the bridge
name, resolved index) and issue `SIOCBRADDIF`;
`CHECK_IOCTL(err, "bridge intf add")`. -/
def stub_bridge_intf_add (k : Kernel) (fd : Int) (name intf : List Nat) :
    Outcome × List Event :=
  let ifindex := k.nametoindex intf
  if ifindex = 0 then
    (.deviceNotFound, [.resolve intf ifindex])
  else
    let ifr : Ifreq := ⟨mkIfrName name, (ifindex : Int)⟩
    match k.ioctl fd .SIOCBRADDIF (.req ifr) with
    | none =>
        (.success, [.resolve intf ifindex, .ioctl fd .SIOCBRADDIF (.req ifr)])
    | some t =>
        (.ioctlError "bridge intf add" t,
         [.resolve intf ifindex, .ioctl fd .SIOCBRADDIF (.req ifr)])

/-- Stub `stub_bridge_intf_del`: same resolution and `ifreq` construction as
`stub_bridge_intf_add`, issuing `SIOCBRDELIF`;
`CHECK_IOCTL(err, "bridge intf del")`. -/
def stub_bridge_intf_del (k : Kernel) (fd : Int) (name intf : List Nat) :
    Outcome × List Event :=
  let ifindex := k.nametoindex intf
  if ifindex = 0 then
    (.deviceNotFound, [.resolve intf ifindex])
  else
    let ifr : Ifreq := ⟨mkIfrName name, (ifindex : Int)⟩
    match k.ioctl fd .SIOCBRDELIF (.req ifr) with
    | none =>
        (.success, [.resolve intf ifindex, .ioctl fd .SIOCBRDELIF (.req ifr)])
    | some t =>
        (.ioctlError "bridge intf del" t,
         [.resolve intf ifindex, .ioctl fd .SIOCBRDELIF (.req ifr)])

/-- Whether an event is an `ioctl` request. -/
def Event.isIoctl : Event → Bool
  | .ioctl _ _ _ => true
  | _ => false

/-- Whether an event is an `if_nametoindex` lookup. -/
def Event.isResolve : Event → Bool
  | .resolve _ _ => true
  | _ => false

/-- The common body shared by `stub_bridge_intf_add` and
`stub_bridge_intf_del`, following the spec's words: identical resolution
and request-building logic, parameterised only by the ioctl request code
and the error label. -/
def bridge_intf_op (code : IoctlCode) (label : String) (k : Kernel)
    (fd : Int) (name intf : List Nat) : Outcome × List Event :=
  let ifindex := k.nametoindex intf
  if ifindex = 0 then
    (.deviceNotFound, [.resolve intf ifindex])
  else
    let ifr : Ifreq := ⟨mkIfrName name, (ifindex : Int)⟩
    match k.ioctl fd code (.req ifr) with
    | none =>
        (.success, [.resolve intf ifindex, .ioctl fd code (.req ifr)])
    | some t =>
        (.ioctlError label t,
         [.resolve intf ifindex, .ioctl fd code (.req ifr)])

lemma strncpyInto_length (dst src : List Nat) (n : Nat) :
    (strncpyInto dst src n).length = dst.length := by
  induction n generalizing dst src with
  | zero => cases dst <;> simp [strncpyInto]
  | succ m ih =>
      cases dst with
      | nil => simp [strncpyInto]
      | cons d ds =>
          cases src with
          | nil => simp [strncpyInto, ih]
          | cons c cs =>
              by_cases hc : c = 0 <;> simp [strncpyInto, hc, ih]

lemma strncpyInto_nil_src (n : Nat) (dst : List Nat) (hd : dst.length = n) :
    strncpyInto dst [] n = List.replicate n 0 := by
  induction n generalizing dst with
  | zero =>
      cases dst with
      | nil => rfl
      | cons d ds => simp at hd
  | succ m ih =>
      cases dst with
      | nil => simp at hd
      | cons d ds =>
          simp only [strncpyInto, List.replicate]
          exact congrArg (0 :: ·) (ih ds (by simpa using hd))

lemma strncpyInto_full_copy (n : Nat) (dst src : List Nat)
    (hd : dst.length = n) (hs : n ≤ src.length) (hz : 0 ∉ src) :
    strncpyInto dst src n = src.take n := by
  induction n generalizing dst src with
  | zero =>
      cases dst with
      | nil => rfl
      | cons d ds => simp at hd
  | succ m ih =>
      cases dst with
      | nil => simp at hd
      | cons d ds =>
          cases src with
          | nil => simp at hs
          | cons c cs =>
              have hc : c ≠ 0 := fun h => hz (h ▸ List.mem_cons_self c cs)
              have hc' : ¬(c = 0) := hc
              simp only [strncpyInto, hc', if_false, List.take_succ_cons]
              exact congrArg (c :: ·)
                (ih ds cs (by simpa using hd) (by simpa using hs)
                  (fun h => hz (List.mem_cons_of_mem c h)))

lemma strncpyInto_pad (n : Nat) (dst src : List Nat)
    (hd : dst.length = n) (hs : src.length < n) (hz : 0 ∉ src) :
    strncpyInto dst src n = src ++ List.replicate (n - src.length) 0 := by
  induction n generalizing dst src with
  | zero => simp at hs
  | succ m ih =>
      cases dst with
      | nil => simp at hd
      | cons d ds =>
          cases src with
          | nil =>
              simp only [List.nil_append, List.length_nil, Nat.sub_zero]
              exact strncpyInto_nil_src (m + 1) (d :: ds) hd
          | cons c cs =>
              have hc : c ≠ 0 := fun h => hz (h ▸ List.mem_cons_self c cs)
              have hc' : ¬(c = 0) := hc
              simp only [strncpyInto, hc', if_false, List.cons_append,
                List.length_cons, Nat.succ_sub_succ]
              exact congrArg (c :: ·)
                (ih ds cs (by simpa using hd) (by simpa using hs)
                  (fun h => hz (List.mem_cons_of_mem c h)))

lemma strncpyInto_indep (n : Nat) (dst dst' src : List Nat)
    (hd : dst.length = n) (hd' : dst'.length = n) :
    strncpyInto dst src n = strncpyInto dst' src n := by
  induction n generalizing dst dst' src with
  | zero =>
      cases dst with
      | nil =>
          cases dst' with
          | nil => rfl
          | cons d ds => simp at hd'
      | cons d ds => simp at hd
  | succ m ih =>
      cases dst with
      | nil => simp at hd
      | cons d ds =>
          cases dst' with
          | nil => simp at hd'
          | cons d' ds' =>
              cases src with
              | nil =>
                  simp only [strncpyInto]
                  exact congrArg (0 :: ·)
                    (ih ds ds' [] (by simpa using hd) (by simpa using hd'))
              | cons c cs =>
                  by_cases hc : c = 0
                  · simp only [strncpyInto, hc, if_true]
                    exact congrArg (0 :: ·)
                      (ih ds ds' [] (by simpa using hd) (by simpa using hd'))
                  · simp only [strncpyInto, hc, if_false]
                    exact congrArg (c :: ·)
                      (ih ds ds' cs (by simpa using hd) (by simpa using hd'))

lemma mkIfrName_length (name : List Nat) :
    (mkIfrName name).length = IFNAMSIZ := by
  simp [mkIfrName, strncpyInto_length, memsetZero]

/-- A trace neither closes any descriptor nor issues a kernel request on
any descriptor other than the caller-supplied one. -/
def preservesCaller (fd : Int) (tr : List Event) : Prop :=
  ∀ e ∈ tr, (∀ f, e ≠ .close f) ∧
    (∀ f code arg, e = .ioctl f code arg → f = fd)

/-- C1: when interface-name resolution yields index zero, both
`stub_bridge_intf_add` and `stub_bridge_intf_del` fail with the distinct
`Device_not_found` condition before issuing any kernel request: the
trace is the single resolution event and contains no ioctl. -/
theorem resolve_zero_fails_before_ioctl (k : Kernel) (fd : Int)
    (name intf : List Nat) (h : k.nametoindex intf = 0) :
    stub_bridge_intf_add k fd name intf =
      (.deviceNotFound, [.resolve intf 0]) ∧
    stub_bridge_intf_del k fd name intf =
      (.deviceNotFound, [.resolve intf 0]) ∧
    (∀ e ∈ (stub_bridge_intf_add k fd name intf).2, e.isIoctl = false) ∧
    (∀ e ∈ (stub_bridge_intf_del k fd name intf).2, e.isIoctl = false) := by
  refine ⟨?_, ?_, ?_, ?_⟩ <;>
    simp [stub_bridge_intf_add, stub_bridge_intf_del, h, Event.isIoctl]

/-- Witness for C1: a kernel that resolves no interface name. -/
theorem resolve_zero_fails_before_ioctl_witness :
    stub_bridge_intf_add ⟨fun _ => 0, fun _ _ _ => none⟩ 3 [98, 114] [101] =
      (.deviceNotFound, [.resolve [101] 0]) :=
  (resolve_zero_fails_before_ioctl ⟨fun _ => 0, fun _ _ _ => none⟩ 3
    [98, 114] [101] rfl).1

/-- C5: `stub_bridge_intf_del` performs exactly the same resolution and
request-record construction as `stub_bridge_intf_add`: each equals the
common template `bridge_intf_op`, instantiated only with a different
ioctl request code and error label. -/
theorem detach_mirrors_attach (k : Kernel) (fd : Int) (name intf : List Nat) :
    stub_bridge_intf_add k fd name intf =
      bridge_intf_op .SIOCBRADDIF "bridge intf add" k fd name intf ∧
    stub_bridge_intf_del k fd name intf =
      bridge_intf_op .SIOCBRDELIF "bridge intf del" k fd name intf :=
  ⟨rfl, rfl⟩

/-- C10: `stub_bridge_add` and `stub_bridge_del` pass the name string
verbatim to the single kernel request, never raise `Device_not_found`,
and their only failure is the labelled ioctl error. -/
theorem create_destroy_verbatim (k : Kernel) (fd : Int) (name : List Nat) :
    (stub_bridge_add k fd name).2 = [.ioctl fd .SIOCBRADDBR (.str name)] ∧
    (stub_bridge_del k fd name).2 = [.ioctl fd .SIOCBRDELBR (.str name)] ∧
    (stub_bridge_add k fd name).1 ≠ .deviceNotFound ∧
    (stub_bridge_del k fd name).1 ≠ .deviceNotFound ∧
    ((stub_bridge_add k fd name).1 = .success ∨
      ∃ t, (stub_bridge_add k fd name).1 = .ioctlError "bridge add" t) ∧
    ((stub_bridge_del k fd name).1 = .success ∨
      ∃ t, (stub_bridge_del k fd name).1 = .ioctlError "bridge del" t) := by
  cases ha : k.ioctl fd .SIOCBRADDBR (.str name) <;>
    cases hd : k.ioctl fd .SIOCBRDELBR (.str name) <;>
      simp [stub_bridge_add, stub_bridge_del, ha, hd]

/-- C8: no operation closes the caller's descriptor or issues a kernel
request on any other descriptor; on every outcome the trace only ever
passes the caller-supplied `fd` to the kernel. -/
theorem descriptor_frame (k : Kernel) (fd : Int) (name intf : List Nat) :
    preservesCaller fd (stub_bridge_add k fd name).2 ∧
    preservesCaller fd (stub_bridge_del k fd name).2 ∧
    preservesCaller fd (stub_bridge_intf_add k fd name intf).2 ∧
    preservesCaller fd (stub_bridge_intf_del k fd name intf).2 := by
  have h1 : preservesCaller fd (stub_bridge_add k fd name).2 := by
    cases h : k.ioctl fd .SIOCBRADDBR (.str name) <;>
      simp [stub_bridge_add, h, preservesCaller]
  have h2 : preservesCaller fd (stub_bridge_del k fd name).2 := by
    cases h : k.ioctl fd .SIOCBRDELBR (.str name) <;>
      simp [stub_bridge_del, h, preservesCaller]
  have h3 : preservesCaller fd (stub_bridge_intf_add k fd name intf).2 := by
    by_cases hz : k.nametoindex intf = 0
    · simp [stub_bridge_intf_add, hz, preservesCaller]
    · cases h : k.ioctl fd .SIOCBRADDIF
          (.req ⟨mkIfrName name, (k.nametoindex intf : Int)⟩) <;>
        simp [stub_bridge_intf_add, hz, h, preservesCaller]
  have h4 : preservesCaller fd (stub_bridge_intf_del k fd name intf).2 := by
    by_cases hz : k.nametoindex intf = 0
    · simp [stub_bridge_intf_del, hz, preservesCaller]
    · cases h : k.ioctl fd .SIOCBRDELIF
          (.req ⟨mkIfrName name, (k.nametoindex intf : Int)⟩) <;>
        simp [stub_bridge_intf_del, hz, h, preservesCaller]
  exact ⟨h1, h2, h3, h4⟩

/-- C7: each call issues exactly one ioctl on the success path;
`stub_bridge_add`/`stub_bridge_del` always issue exactly one ioctl and
no resolution; the interface operations perform exactly one resolution,
at most one ioctl, and the resolution is the first event of the trace. -/
theorem single_syscall_shape (k : Kernel) (fd : Int) (name intf : List Nat) :
    (stub_bridge_add k fd name).2.countP (fun e => e.isIoctl) = 1 ∧
    (stub_bridge_add k fd name).2.countP (fun e => e.isResolve) = 0 ∧
    (stub_bridge_del k fd name).2.countP (fun e => e.isIoctl) = 1 ∧
    (stub_bridge_del k fd name).2.countP (fun e => e.isResolve) = 0 ∧
    (stub_bridge_intf_add k fd name intf).2.countP (fun e => e.isResolve) = 1 ∧
    (stub_bridge_intf_add k fd name intf).2.countP (fun e => e.isIoctl) ≤ 1 ∧
    (stub_bridge_intf_add k fd name intf).2.head? =
      some (.resolve intf (k.nametoindex intf)) ∧
    ((stub_bridge_intf_add k fd name intf).1 = .success →
      (stub_bridge_intf_add k fd name intf).2.countP (fun e => e.isIoctl) = 1) ∧
    (stub_bridge_intf_del k fd name intf).2.countP (fun e => e.isResolve) = 1 ∧
    (stub_bridge_intf_del k fd name intf).2.countP (fun e => e.isIoctl) ≤ 1 ∧
    (stub_bridge_intf_del k fd name intf).2.head? =
      some (.resolve intf (k.nametoindex intf)) ∧
    ((stub_bridge_intf_del k fd name intf).1 = .success →
      (stub_bridge_intf_del k fd name intf).2.countP (fun e => e.isIoctl) = 1) := by
  have tadd : (stub_bridge_add k fd name).2 =
      [.ioctl fd .SIOCBRADDBR (.str name)] := by
    cases h : k.ioctl fd .SIOCBRADDBR (.str name) <;>
      simp [stub_bridge_add, h]
  have tdel : (stub_bridge_del k fd name).2 =
      [.ioctl fd .SIOCBRDELBR (.str name)] := by
    cases h : k.ioctl fd .SIOCBRDELBR (.str name) <;>
      simp [stub_bridge_del, h]
  have tia : (stub_bridge_intf_add k fd name intf).2 =
        [.resolve intf (k.nametoindex intf)] ∨
      (stub_bridge_intf_add k fd name intf).2 =
        [.resolve intf (k.nametoindex intf),
         .ioctl fd .SIOCBRADDIF
           (.req ⟨mkIfrName name, (k.nametoindex intf : Int)⟩)] := by
    by_cases hz : k.nametoindex intf = 0
    · left; simp [stub_bridge_intf_add, hz]
    · right
      cases h : k.ioctl fd .SIOCBRADDIF
          (.req ⟨mkIfrName name, (k.nametoindex intf : Int)⟩) <;>
        simp [stub_bridge_intf_add, hz, h]
  have tid : (stub_bridge_intf_del k fd name intf).2 =
        [.resolve intf (k.nametoindex intf)] ∨
      (stub_bridge_intf_del k fd name intf).2 =
        [.resolve intf (k.nametoindex intf),
         .ioctl fd .SIOCBRDELIF
           (.req ⟨mkIfrName name, (k.nametoindex intf : Int)⟩)] := by
    by_cases hz : k.nametoindex intf = 0
    · left; simp [stub_bridge_intf_del, hz]
    · right
      cases h : k.ioctl fd .SIOCBRDELIF
          (.req ⟨mkIfrName name, (k.nametoindex intf : Int)⟩) <;>
        simp [stub_bridge_intf_del, hz, h]
  have sia : (stub_bridge_intf_add k fd name intf).1 = .success →
      (stub_bridge_intf_add k fd name intf).2 =
        [.resolve intf (k.nametoindex intf),
         .ioctl fd .SIOCBRADDIF
           (.req ⟨mkIfrName name, (k.nametoindex intf : Int)⟩)] := by
    by_cases hz : k.nametoindex intf = 0
    · simp [stub_bridge_intf_add, hz]
    · cases h : k.ioctl fd .SIOCBRADDIF
          (.req ⟨mkIfrName name, (k.nametoindex intf : Int)⟩) <;>
        simp [stub_bridge_intf_add, hz, h]
  have sid : (stub_bridge_intf_del k fd name intf).1 = .success →
      (stub_bridge_intf_del k fd name intf).2 =
        [.resolve intf (k.nametoindex intf),
         .ioctl fd .SIOCBRDELIF
           (.req ⟨mkIfrName name, (k.nametoindex intf : Int)⟩)] := by
    by_cases hz : k.nametoindex intf = 0
    · simp [stub_bridge_intf_del, hz]
    · cases h : k.ioctl fd .SIOCBRDELIF
          (.req ⟨mkIfrName name, (k.nametoindex intf : Int)⟩) <;>
        simp [stub_bridge_intf_del, hz, h]
  refine ⟨?_, ?_, ?_, ?_, ?_, ?_, ?_, ?_, ?_, ?_, ?_, ?_⟩
  · rw [tadd]; simp [Event.isIoctl]
  · rw [tadd]; simp [Event.isResolve]
  · rw [tdel]; simp [Event.isIoctl]
  · rw [tdel]; simp [Event.isResolve]
  · rcases tia with h | h <;> rw [h] <;> simp [Event.isResolve]
  · rcases tia with h | h <;> rw [h] <;> simp [Event.isIoctl]
  · rcases tia with h | h <;> rw [h] <;> simp
  · intro hs; rw [sia hs]; simp [Event.isIoctl]
  · rcases tid with h | h <;> rw [h] <;> simp [Event.isResolve]
  · rcases tid with h | h <;> rw [h] <;> simp [Event.isIoctl]
  · rcases tid with h | h <;> rw [h] <;> simp
  · intro hs; rw [sid hs]; simp [Event.isIoctl]

/-- C2: if the bridge name (a C string, hence free of zero bytes) is
`IFNAMSIZ` bytes or longer, the name field of the request record passed
to the kernel by both interface operations contains no zero byte at all:
the bounded copy fills the full width. -/
theorem long_name_unterminated (k : Kernel) (fd : Int) (name intf : List Nat)
    (hz : (0 : Nat) ∉ name) (hlen : IFNAMSIZ ≤ name.length)
    (hres : k.nametoindex intf ≠ 0) :
    (0 : Nat) ∉ mkIfrName name ∧
    (stub_bridge_intf_add k fd name intf).2 =
      [.resolve intf (k.nametoindex intf),
       .ioctl fd .SIOCBRADDIF
         (.req ⟨mkIfrName name, (k.nametoindex intf : Int)⟩)] ∧
    (stub_bridge_intf_del k fd name intf).2 =
      [.resolve intf (k.nametoindex intf),
       .ioctl fd .SIOCBRDELIF
         (.req ⟨mkIfrName name, (k.nametoindex intf : Int)⟩)] := by
  have hfull : mkIfrName name = name.take IFNAMSIZ :=
    strncpyInto_full_copy IFNAMSIZ (memsetZero IFNAMSIZ) name
      (by simp [memsetZero]) hlen hz
  refine ⟨?_, ?_, ?_⟩
  · rw [hfull]
    intro hmem
    exact hz (List.take_subset IFNAMSIZ name hmem)
  · cases h : k.ioctl fd .SIOCBRADDIF
        (.req ⟨mkIfrName name, (k.nametoindex intf : Int)⟩) <;>
      simp [stub_bridge_intf_add, hres, h]
  · cases h : k.ioctl fd .SIOCBRDELIF
        (.req ⟨mkIfrName name, (k.nametoindex intf : Int)⟩) <;>
      simp [stub_bridge_intf_del, hres, h]

/-- Witness for C2: a 16-byte name of letters `a` leaves no zero byte in
the request buffer. -/
theorem long_name_unterminated_witness :
    (0 : Nat) ∉ mkIfrName (List.replicate 16 97) :=
  (long_name_unterminated ⟨fun _ => 2, fun _ _ _ => none⟩ 3
    (List.replicate 16 97) [101] (by decide) (by decide) (by decide)).1

/-- C3: on successful resolution, the request record both interface
operations pass to the kernel is the `IFNAMSIZ`-byte name field — first
fully zeroed, then filled by the bounded copy — together with the
interface-index field set to the resolved index. -/
theorem request_record_layout (k : Kernel) (fd : Int) (name intf : List Nat)
    (hres : k.nametoindex intf ≠ 0) :
    (stub_bridge_intf_add k fd name intf).2 =
      [.resolve intf (k.nametoindex intf),
       .ioctl fd .SIOCBRADDIF
         (.req ⟨strncpyInto (memsetZero IFNAMSIZ) name IFNAMSIZ,
           (k.nametoindex intf : Int)⟩)] ∧
    (stub_bridge_intf_del k fd name intf).2 =
      [.resolve intf (k.nametoindex intf),
       .ioctl fd .SIOCBRDELIF
         (.req ⟨strncpyInto (memsetZero IFNAMSIZ) name IFNAMSIZ,
           (k.nametoindex intf : Int)⟩)] ∧
    (strncpyInto (memsetZero IFNAMSIZ) name IFNAMSIZ).length = IFNAMSIZ := by
  refine ⟨?_, ?_, mkIfrName_length name⟩
  · cases h : k.ioctl fd .SIOCBRADDIF
        (.req ⟨strncpyInto (memsetZero IFNAMSIZ) name IFNAMSIZ,
          (k.nametoindex intf : Int)⟩) <;>
      simp [stub_bridge_intf_add, hres, h, mkIfrName]
  · cases h : k.ioctl fd .SIOCBRDELIF
        (.req ⟨strncpyInto (memsetZero IFNAMSIZ) name IFNAMSIZ,
          (k.nametoindex intf : Int)⟩) <;>
      simp [stub_bridge_intf_del, hres, h, mkIfrName]

/-- Witness for C3: concrete kernel resolving every name to index 5. -/
theorem request_record_layout_witness :
    (stub_bridge_intf_add ⟨fun _ => 5, fun _ _ _ => none⟩ 4 [98] [101]).2 =
      [.resolve [101] 5,
       .ioctl 4 .SIOCBRADDIF
         (.req ⟨strncpyInto (memsetZero IFNAMSIZ) [98] IFNAMSIZ, (5 : Int)⟩)] :=
  (request_record_layout ⟨fun _ => 5, fun _ _ _ => none⟩ 4 [98] [101]
    (by decide)).1

/-- C9: for a bridge name (a C string, hence free of zero bytes) shorter
than `IFNAMSIZ`, the request-record name field is exactly the name's
bytes followed by zero bytes up to the full width, and the bounded copy
makes the result independent of the prior zero-fill: any prior buffer
contents of the right length give the same field. -/
theorem short_name_zero_padded (name : List Nat)
    (hz : (0 : Nat) ∉ name) (hlen : name.length < IFNAMSIZ) :
    mkIfrName name = name ++ List.replicate (IFNAMSIZ - name.length) 0 ∧
    ∀ dst, dst.length = IFNAMSIZ →
      strncpyInto dst name IFNAMSIZ = mkIfrName name := by
  constructor
  · exact strncpyInto_pad IFNAMSIZ (memsetZero IFNAMSIZ) name
      (by simp [memsetZero]) hlen hz
  · intro dst hdst
    exact strncpyInto_indep IFNAMSIZ dst (memsetZero IFNAMSIZ) name hdst
      (by simp [memsetZero])

/-- Witness for C9: the three-byte name `abc`. -/
theorem short_name_zero_padded_witness :
    mkIfrName [97, 98, 99] = [97, 98, 99] ++ List.replicate 13 0 :=
  (short_name_zero_padded [97, 98, 99] (by decide) (by decide)).1

/-- C4: each operation fails with the ioctl error carrying exactly its
own category label and the kernel's errno text precisely when its kernel
request fails, and succeeds precisely when the request does not fail
(for the interface operations, once resolution has succeeded). -/
theorem error_surface (k : Kernel) (fd : Int) (name intf : List Nat)
    (hres : k.nametoindex intf ≠ 0) :
    ((stub_bridge_add k fd name).1 = .success ↔
      k.ioctl fd .SIOCBRADDBR (.str name) = none) ∧
    (∀ t, (stub_bridge_add k fd name).1 = .ioctlError "bridge add" t ↔
      k.ioctl fd .SIOCBRADDBR (.str name) = some t) ∧
    (∀ l t, (stub_bridge_add k fd name).1 = .ioctlError l t →
      l = "bridge add") ∧
    ((stub_bridge_del k fd name).1 = .success ↔
      k.ioctl fd .SIOCBRDELBR (.str name) = none) ∧
    (∀ t, (stub_bridge_del k fd name).1 = .ioctlError "bridge del" t ↔
      k.ioctl fd .SIOCBRDELBR (.str name) = some t) ∧
    (∀ l t, (stub_bridge_del k fd name).1 = .ioctlError l t →
      l = "bridge del") ∧
    ((stub_bridge_intf_add k fd name intf).1 = .success ↔
      k.ioctl fd .SIOCBRADDIF
        (.req ⟨mkIfrName name, (k.nametoindex intf : Int)⟩) = none) ∧
    (∀ t, (stub_bridge_intf_add k fd name intf).1 =
        .ioctlError "bridge intf add" t ↔
      k.ioctl fd .SIOCBRADDIF
        (.req ⟨mkIfrName name, (k.nametoindex intf : Int)⟩) = some t) ∧
    (∀ l t, (stub_bridge_intf_add k fd name intf).1 = .ioctlError l t →
      l = "bridge intf add") ∧
    ((stub_bridge_intf_del k fd name intf).1 = .success ↔
      k.ioctl fd .SIOCBRDELIF
        (.req ⟨mkIfrName name, (k.nametoindex intf : Int)⟩) = none) ∧
    (∀ t, (stub_bridge_intf_del k fd name intf).1 =
        .ioctlError "bridge intf del" t ↔
      k.ioctl fd .SIOCBRDELIF
        (.req ⟨mkIfrName name, (k.nametoindex intf : Int)⟩) = some t) ∧
    (∀ l t, (stub_bridge_intf_del k fd name intf).1 = .ioctlError l t →
      l = "bridge intf del") := by
  refine ⟨?_, ?_, ?_, ?_, ?_, ?_, ?_, ?_, ?_, ?_, ?_, ?_⟩
  · cases h : k.ioctl fd .SIOCBRADDBR (.str name) <;>
      simp [stub_bridge_add, h]
  · intro t
    cases h : k.ioctl fd .SIOCBRADDBR (.str name) <;>
      simp [stub_bridge_add, h, eq_comm]
  · intro l t
    cases h : k.ioctl fd .SIOCBRADDBR (.str name) <;>
      simp [stub_bridge_add, h, eq_comm] <;>
      exact fun h1 _ => h1
  · cases h : k.ioctl fd .SIOCBRDELBR (.str name) <;>
      simp [stub_bridge_del, h]
  · intro t
    cases h : k.ioctl fd .SIOCBRDELBR (.str name) <;>
      simp [stub_bridge_del, h, eq_comm]
  · intro l t
    cases h : k.ioctl fd .SIOCBRDELBR (.str name) <;>
      simp [stub_bridge_del, h, eq_comm] <;>
      exact fun h1 _ => h1
  · cases h : k.ioctl fd .SIOCBRADDIF
        (.req ⟨mkIfrName name, (k.nametoindex intf : Int)⟩) <;>
      simp [stub_bridge_intf_add, hres, h]
  · intro t
    cases h : k.ioctl fd .SIOCBRADDIF
        (.req ⟨mkIfrName name, (k.nametoindex intf : Int)⟩) <;>
      simp [stub_bridge_intf_add, hres, h, eq_comm]
  · intro l t
    cases h : k.ioctl fd .SIOCBRADDIF
        (.req ⟨mkIfrName name, (k.nametoindex intf : Int)⟩) <;>
      simp [stub_bridge_intf_add, hres, h, eq_comm] <;>
      exact fun h1 _ => h1
  · cases h : k.ioctl fd .SIOCBRDELIF
        (.req ⟨mkIfrName name, (k.nametoindex intf : Int)⟩) <;>
      simp [stub_bridge_intf_del, hres, h]
  · intro t
    cases h : k.ioctl fd .SIOCBRDELIF
        (.req ⟨mkIfrName name, (k.nametoindex intf : Int)⟩) <;>
      simp [stub_bridge_intf_del, hres, h, eq_comm]
  · intro l t
    cases h : k.ioctl fd .SIOCBRDELIF
        (.req ⟨mkIfrName name, (k.nametoindex intf : Int)⟩) <;>
      simp [stub_bridge_intf_del, hres, h, eq_comm] <;>
      exact fun h1 _ => h1

/-- Witness for C4: a kernel whose every request succeeds. -/
theorem error_surface_witness :
    (stub_bridge_add ⟨fun _ => 7, fun _ _ _ => none⟩ 5 [98]).1 = .success ↔
      Kernel.ioctl ⟨fun _ => 7, fun _ _ _ => none⟩ 5 .SIOCBRADDBR
        (.str [98]) = none :=
  (error_surface ⟨fun _ => 7, fun _ _ _ => none⟩ 5 [98] [101] (by decide)).1

/-- Modelled from the spec: the kernel's bridge table, which is not part
of this repository's source (only the ioctl requests issued against it
are).  A state is the list of existing bridge names. -/
structure BridgeState where
  bridges : List (List Nat)
deriving DecidableEq, Repr

/-- Modelled from the spec: a bridge name the kernel accepts — nonempty,
at most `IFNAMSIZ - 1` bytes, free of zero bytes. -/
def goodName (name : List Nat) : Bool :=
  !name.isEmpty && decide (name.length < IFNAMSIZ) && !(name.contains 0)

/-- Modelled from the spec: the kernel's response to the bridge-table
ioctls — creating a bridge fails when the name is already in use or
invalid; destroying fails when the bridge does not exist; other request
shapes are outside this model and rejected. -/
def bridgeIoctlResult (st : BridgeState) (code : IoctlCode)
    (arg : IoctlArg) : Option String :=
  match code, arg with
  | .SIOCBRADDBR, .str name =>
      if name ∈ st.bridges then some "File exists"
      else if goodName name then none
      else some "Invalid argument"
  | .SIOCBRDELBR, .str name =>
      if name ∈ st.bridges then none else some "No such device"
  | _, _ => some "Invalid argument"

/-- Modelled from the spec: the kernel bridge-table transition effected
by one ioctl request. -/
def bridgeIoctlStep (st : BridgeState) (code : IoctlCode)
    (arg : IoctlArg) : BridgeState :=
  match code, arg with
  | .SIOCBRADDBR, .str name =>
      if name ∈ st.bridges then st
      else if goodName name then ⟨name :: st.bridges⟩
      else st
  | .SIOCBRDELBR, .str name => ⟨st.bridges.erase name⟩
  | _, _ => st

/-- The kernel environment determined by a bridge state and a resolver. -/
def specKernel (st : BridgeState) (resolve : List Nat → Nat) : Kernel :=
  ⟨resolve, fun _ code arg => bridgeIoctlResult st code arg⟩

/-- Apply the ioctl requests of a trace to a bridge state. -/
def applyEvents (st : BridgeState) : List Event → BridgeState
  | [] => st
  | .ioctl _ code arg :: es => applyEvents (bridgeIoctlStep st code arg) es
  | _ :: es => applyEvents st es

/-- C6: against the spec's kernel bridge-table model, `stub_bridge_add`
on a valid, unused name succeeds, `stub_bridge_del` on the same name in
the resulting state succeeds, and the final state contains no bridge of
that name. -/
theorem create_destroy_roundtrip (st : BridgeState)
    (resolve : List Nat → Nat) (fd : Int) (name : List Nat)
    (hgood : goodName name = true) (hunused : name ∉ st.bridges) :
    (stub_bridge_add (specKernel st resolve) fd name).1 = .success ∧
    (stub_bridge_del
      (specKernel
        (applyEvents st (stub_bridge_add (specKernel st resolve) fd name).2)
        resolve) fd name).1 = .success ∧
    name ∉ (applyEvents
      (applyEvents st (stub_bridge_add (specKernel st resolve) fd name).2)
      (stub_bridge_del
        (specKernel
          (applyEvents st (stub_bridge_add (specKernel st resolve) fd name).2)
          resolve) fd name).2).bridges := by
  have hadd : stub_bridge_add (specKernel st resolve) fd name =
      (.success, [.ioctl fd .SIOCBRADDBR (.str name)]) := by
    simp [stub_bridge_add, specKernel, bridgeIoctlResult, hunused, hgood]
  have hst1 : applyEvents st
      (stub_bridge_add (specKernel st resolve) fd name).2 =
      ⟨name :: st.bridges⟩ := by
    rw [hadd]
    simp [applyEvents, bridgeIoctlStep, hunused, hgood]
  have hdel : stub_bridge_del (specKernel ⟨name :: st.bridges⟩ resolve)
      fd name = (.success, [.ioctl fd .SIOCBRDELBR (.str name)]) := by
    simp [stub_bridge_del, specKernel, bridgeIoctlResult]
  refine ⟨by rw [hadd], ?_, ?_⟩
  · rw [hst1, hdel]
  · rw [hst1, hdel]
    simpa [applyEvents, bridgeIoctlStep] using hunused

/-- Witness for C6: the empty bridge table and the name `br0`. -/
theorem create_destroy_roundtrip_witness :
    (stub_bridge_add (specKernel ⟨[]⟩ (fun _ => 0)) 3 [98, 114, 48]).1 =
      .success :=
  (create_destroy_roundtrip ⟨[]⟩ (fun _ => 0) 3 [98, 114, 48]
    (by decide) (by decide)).1

end BridgeStubs
